import Mathlib

/-!
Verification of the session manager / streaming event bridge of the
Copilot wrapper service (`copilot-service.js`, sessions variant).

JavaScript strings are modelled as lists of characters (`Str`); the JS
string operations used by the source (`trim`, `trimStart`, `toLowerCase`,
`startsWith`, `substring(n)`, `length`, `+`) are modelled by the
corresponding list operations.  `undefined`/absent fields are modelled by
`Option`; the JS `a || b` fallback chain on strings (where the empty
string is falsy) is modelled by `jsOr`.
-/

abbrev Str := List Char

/-- JS `a || b` on string-valued expressions: `a` when it is present and
non-empty (truthy), otherwise `b`. -/
def jsOr (o : Option Str) (dflt : Str) : Str :=
  match o with
  | some s => if s = [] then dflt else s
  | none => dflt

/-- JS string concatenation with a possibly-`undefined` operand:
`x += undefined` appends the text `"undefined"`. -/
def jsUndef (o : Option Str) : Str :=
  match o with
  | some s => s
  | none => "undefined".toList

/-- JS `String.prototype.trimStart`. -/
def jsTrimStart (s : Str) : Str := s.dropWhile Char.isWhitespace

/-- JS `String.prototype.trimEnd`. -/
def jsTrimEnd (s : Str) : Str := (s.reverse.dropWhile Char.isWhitespace).reverse

/-- JS `String.prototype.trim`. -/
def jsTrim (s : Str) : Str := jsTrimEnd (jsTrimStart s)

/-- JS `String.prototype.toLowerCase` (character-wise case folding). -/
def jsToLower (s : Str) : Str := s.map Char.toLower

/-- JS `s.startsWith(p)`. -/
def jsStartsWith (s p : Str) : Bool := p.isPrefixOf s

/-- Payload of a raw assistant event: every text-like field the handler in
`copilot-service.js` ever reads, each possibly absent.  `deltaNested`
models the nested `delta.content` access; a field that is present but not
a string in JS is modelled as absent. -/
structure EventData where
  deltaContent : Option Str := none
  deltaNested : Option Str := none
  content : Option Str := none
  text : Option Str := none
  message : Option Str := none
  output : Option Str := none
  result : Option Str := none
  status : Option Str := none
  error : Option Str := none
deriving DecidableEq

/-- A raw event from the assistant session.  The discriminator may sit
under `type`, `event` or `kind`; the payload under `data`, `payload` or on
the event object itself (`selfData`), mirroring
`event.type || event.event || event.kind` and
`event.data || event.payload || event` in the source. -/
structure RawEvent where
  type : Option Str := none
  event : Option Str := none
  kind : Option Str := none
  data : Option EventData := none
  payload : Option EventData := none
  selfData : EventData := {}
deriving DecidableEq

/-- `event.data || event.payload || event` (objects are truthy in JS). -/
def eventDataOf (e : RawEvent) : EventData :=
  match e.data with
  | some d => d
  | none =>
    match e.payload with
    | some p => p
    | none => e.selfData

/-- `event.type || event.event || event.kind`. -/
def resolvedType (e : RawEvent) : Str :=
  jsOr e.type (jsOr e.event (jsOr e.kind []))

/-- The per-turn mutable state of the streaming handler in
`sendPromptStreaming` (`hasCompleted`, `hasError`, `hasReceivedDeltas`,
`accumulatedContent`, `promptStripped`). -/
structure StreamState where
  hasCompleted : Bool
  hasError : Bool
  hasReceivedDeltas : Bool
  accumulatedContent : Str
  promptStripped : Bool
deriving DecidableEq

def initStream : StreamState := ⟨false, false, false, [], false⟩

/-- An observable callback invocation of the streaming turn: `onChunk`,
`onComplete`, or `onError` (with the constructed error message). -/
inductive Out where
  | chunk (s : Str)
  | complete
  | error (msg : Str)
deriving DecidableEq

def isTerminal : Out → Bool
  | .chunk _ => false
  | .complete => true
  | .error _ => true

def isChunk : Out → Bool
  | .chunk _ => true
  | _ => false

/-- The `content` extracted by the delta branch:
`eventData?.deltaContent || eventData?.delta?.content || eventData?.content || eventData?.text || ""`. -/
def deltaContentOf (e : RawEvent) : Str :=
  jsOr (eventDataOf e).deltaContent
    (jsOr (eventDataOf e).deltaNested
      (jsOr (eventDataOf e).content
        (jsOr (eventDataOf e).text [])))

/-- The `content` extracted by the full-message branch:
`eventData?.content || eventData?.message || eventData?.text || ""`. -/
def msgContentOf (e : RawEvent) : Str :=
  jsOr (eventDataOf e).content
    (jsOr (eventDataOf e).message
      (jsOr (eventDataOf e).text []))

/-- The `content` extracted by the tool-output branch:
`eventData?.output || eventData?.result || eventData?.content || eventData?.text || ""`. -/
def toolContentOf (e : RawEvent) : Str :=
  jsOr (eventDataOf e).output
    (jsOr (eventDataOf e).result
      (jsOr (eventDataOf e).content
        (jsOr (eventDataOf e).text [])))

/-- The `content` extracted by the status branch:
`eventData?.message || eventData?.status || eventData?.content || eventData?.text || ""`. -/
def statusContentOf (e : RawEvent) : Str :=
  jsOr (eventDataOf e).message
    (jsOr (eventDataOf e).status
      (jsOr (eventDataOf e).content
        (jsOr (eventDataOf e).text [])))

/-- The `content` extracted from unrecognized events:
`eventData?.content || eventData?.text || eventData?.message || eventData?.output || ""`. -/
def unkContentOf (e : RawEvent) : Str :=
  jsOr (eventDataOf e).content
    (jsOr (eventDataOf e).text
      (jsOr (eventDataOf e).message
        (jsOr (eventDataOf e).output [])))

/-- `normalizedAccumulated.startsWith(normalizedPrompt)`: the accumulated
buffer, trimmed and case-folded, starts with the trimmed, case-folded
prompt. -/
def echoDetected (prompt acc : Str) : Bool :=
  jsStartsWith (jsToLower (jsTrim acc)) (jsToLower (jsTrim prompt))

/-- `accumulatedContent.trim().substring(prompt.trim().length).trimStart()`:
what remains of the accumulated buffer after stripping the prompt echo. -/
def strippedRemainder (prompt acc : Str) : Str :=
  jsTrimStart ((jsTrim acc).drop (jsTrim prompt).length)

def isDeltaType (t : Str) : Prop :=
  t = "assistant.message_delta".toList ∨ t = "message_delta".toList ∨
    t = "delta".toList

def isMsgType (t : Str) : Prop :=
  t = "assistant.message".toList ∨ t = "message".toList

def isIdleType (t : Str) : Prop :=
  t = "session.idle".toList ∨ t = "idle".toList ∨ t = "done".toList ∨
    t = "complete".toList

def isToolType (t : Str) : Prop :=
  t = "tool.output".toList ∨ t = "tool_output".toList ∨
    t = "tool.result".toList

def isStatusType (t : Str) : Prop :=
  t = "assistant.status".toList ∨ t = "status".toList ∨
    t = "progress".toList

instance (t : Str) : Decidable (isDeltaType t) := by unfold isDeltaType; infer_instance
instance (t : Str) : Decidable (isMsgType t) := by unfold isMsgType; infer_instance
instance (t : Str) : Decidable (isIdleType t) := by unfold isIdleType; infer_instance
instance (t : Str) : Decidable (isToolType t) := by unfold isToolType; infer_instance
instance (t : Str) : Decidable (isStatusType t) := by unfold isStatusType; infer_instance

/-- The `session.on` handler body of `sendPromptStreaming`, as a pure
transition: given the prompt, the current turn state and one raw event,
it returns the updated state and the callbacks invoked, branch for branch
as in the source. -/
def handleEvent (prompt : Str) (st : StreamState) (e : RawEvent) :
    StreamState × List Out :=
  if isDeltaType (resolvedType e) then
    if st.hasCompleted = false ∧ st.hasError = false then
      if deltaContentOf e = [] then (st, [])
      else
        if st.promptStripped = false then
          if echoDetected prompt (st.accumulatedContent ++ deltaContentOf e) then
            ({ st with
                hasReceivedDeltas := true
                accumulatedContent := []
                promptStripped := true },
             if strippedRemainder prompt
                  (st.accumulatedContent ++ deltaContentOf e) = [] then []
             else [Out.chunk (strippedRemainder prompt
                    (st.accumulatedContent ++ deltaContentOf e))])
          else if (st.accumulatedContent ++ deltaContentOf e).length >
              prompt.length * 2 then
            ({ st with
                hasReceivedDeltas := true
                accumulatedContent := st.accumulatedContent ++ deltaContentOf e
                promptStripped := true },
             [Out.chunk (deltaContentOf e)])
          else
            ({ st with
                hasReceivedDeltas := true
                accumulatedContent := st.accumulatedContent ++ deltaContentOf e },
             [Out.chunk (deltaContentOf e)])
        else
          ({ st with
              hasReceivedDeltas := true
              accumulatedContent := st.accumulatedContent ++ deltaContentOf e },
           [Out.chunk (deltaContentOf e)])
    else (st, [])
  else if isMsgType (resolvedType e) then
    if st.hasCompleted = false ∧ st.hasError = false ∧
        st.hasReceivedDeltas = false then
      if msgContentOf e = [] then (st, [])
      else
        if echoDetected prompt (msgContentOf e) then
          (st,
           if strippedRemainder prompt (msgContentOf e) = [] then []
           else [Out.chunk (strippedRemainder prompt (msgContentOf e))])
        else (st, [Out.chunk (msgContentOf e)])
    else (st, [])
  else if isIdleType (resolvedType e) then
    if st.hasCompleted = false ∧ st.hasError = false then
      ({ st with hasCompleted := true }, [Out.complete])
    else (st, [])
  else if isToolType (resolvedType e) then
    if st.hasCompleted = false ∧ st.hasError = false then
      if toolContentOf e = [] then (st, [])
      else (st, [Out.chunk (toolContentOf e)])
    else (st, [])
  else if isStatusType (resolvedType e) then
    if st.hasCompleted = false ∧ st.hasError = false then
      if statusContentOf e = [] then (st, [])
      else (st, [Out.chunk (statusContentOf e ++ ['\n'])])
    else (st, [])
  else if resolvedType e = "error".toList then
    if st.hasError = false then
      ({ st with hasError := true },
       [Out.error (jsOr (eventDataOf e).message
         (jsOr (eventDataOf e).error "Unknown error".toList))])
    else (st, [])
  else
    (st,
     if unkContentOf e ≠ [] ∧ st.hasCompleted = false ∧ st.hasError = false then
       [Out.chunk (unkContentOf e)]
     else [])

/-- One observable signal of a streaming turn: a raw session event, or
the firing of the 2-minute safety timeout set in `sendPromptStreaming`.
A cleared (or already-superseded) timer firing is a no-op because the
handler re-checks the terminal flags, so admissible schedules are
arbitrary interleavings of events and (at most, in reality) one timeout
signal. -/
inductive Sig where
  | ev (e : RawEvent)
  | timeout
deriving DecidableEq

/-- The safety timeout (2 minutes) of `sendPromptStreaming`. -/
def streamTimeoutMs : Nat := 120000

def stepSig (prompt : Str) (st : StreamState) (s : Sig) : StreamState × List Out :=
  match s with
  | .ev e => handleEvent prompt st e
  | .timeout =>
    if st.hasCompleted = false ∧ st.hasError = false then
      ({ st with hasCompleted := true }, [Out.complete])
    else (st, [])

def runSigs (prompt : Str) (st : StreamState) : List Sig → StreamState × List Out
  | [] => (st, [])
  | s :: rest =>
    let r := stepSig prompt st s
    let r2 := runSigs prompt r.1 rest
    (r2.1, r.2 ++ r2.2)

/-- The callbacks invoked by one streaming turn of `sendPromptStreaming`,
starting from the fresh per-turn state, over a schedule of signals. -/
def sendPromptStreaming (prompt : Str) (sigs : List Sig) : List Out :=
  (runSigs prompt initStream sigs).2

def streamFinal (prompt : Str) (sigs : List Sig) : StreamState :=
  (runSigs prompt initStream sigs).1

def terminalsOf (outs : List Out) : List Out := outs.filter isTerminal

def chunksOf (outs : List Out) : List Str :=
  outs.filterMap (fun o => match o with | .chunk c => some c | _ => none)

def joinChunks (outs : List Out) : Str := (chunksOf outs).flatten

/-- The message placed in the `Error` constructed by the streaming error
branch (`eventData?.message || eventData?.error || "Unknown error"`). -/
def evErrMsg (e : RawEvent) : Str :=
  jsOr (eventDataOf e).message (jsOr (eventDataOf e).error "Unknown error".toList)

def sigErrMsg : Sig → Str
  | .ev e => evErrMsg e
  | .timeout => []

/-- A delta event carrying `c` in `data.deltaContent`. -/
def deltaEv (c : Str) : RawEvent :=
  { type := some "assistant.message_delta".toList
    data := some { deltaContent := some c } }

/-- A full-message event carrying `c` in `data.content`. -/
def fullMsgEv (c : Str) : RawEvent :=
  { type := some "assistant.message".toList
    data := some { content := some c } }

/-- A `session.idle` completion event. -/
def idleEv : RawEvent := { type := some "session.idle".toList }

/-- An `error` event carrying `m` in `data.message`. -/
def errEv (m : Str) : RawEvent :=
  { type := some "error".toList
    data := some { message := some m } }

/-- A bare `error` event with no payload at all. -/
def bareErrEv : RawEvent := { type := some "error".toList }

/-!
Non-streaming `sendPrompt`.  Its `session.on` handler accumulates
`fullResponse` and `chunks`, resolves on `session.idle`, rejects on
`error`; `sendAndWait().then` installs a 1-second fallback that resolves
with whatever accumulated if no idle event was seen.  The settled value
of the promise is single-assignment (first `resolve`/`reject` wins);
later events keep mutating the local accumulator but cannot change the
settled value.  An event whose `type` matches but which carries no `data`
object would throw in JS; it is modelled as an empty payload.
-/

deriving instance DecidableEq for Except

structure SendState where
  fullResponse : Str
  chunks : List Str
  receivedIdle : Bool
  settled : Option (Except Str Str)
deriving DecidableEq

def initSend : SendState := ⟨[], [], false, none⟩

/-- First `resolve` wins. -/
def resolveSend (st : SendState) (v : Str) : SendState :=
  match st.settled with
  | some _ => st
  | none => { st with settled := some (.ok v) }

/-- First `reject` wins. -/
def rejectSend (st : SendState) (m : Str) : SendState :=
  match st.settled with
  | some _ => st
  | none => { st with settled := some (.error m) }

/-- `event.data` as read by `sendPrompt` (no `payload`/self fallback). -/
def sendDataOf (e : RawEvent) : EventData :=
  match e.data with
  | some d => d
  | none => {}

/-- First `if` of the `sendPrompt` handler: accumulate delta content. -/
def sendHandleDelta (st : SendState) (e : RawEvent) : SendState :=
  if e.type = some "assistant.message_delta".toList then
    { st with
        fullResponse := st.fullResponse ++ jsUndef (sendDataOf e).deltaContent
        chunks := st.chunks ++ [jsUndef (sendDataOf e).deltaContent] }
  else st

/-- Second `if`: a full message replaces the response. -/
def sendHandleMsg (st : SendState) (e : RawEvent) : SendState :=
  if e.type = some "assistant.message".toList then
    { st with fullResponse := jsOr (sendDataOf e).content [] }
  else st

/-- Third `if`: `session.idle` resolves with the current response. -/
def sendHandleIdle (st : SendState) (e : RawEvent) : SendState :=
  if e.type = some "session.idle".toList then
    resolveSend { st with receivedIdle := true } st.fullResponse
  else st

/-- Fourth `if`: an error event rejects with the reported message. -/
def sendHandleErr (st : SendState) (e : RawEvent) : SendState :=
  if e.type = some "error".toList then
    rejectSend st (jsOr (sendDataOf e).message "Unknown error".toList)
  else st

/-- The `session.on` handler of `sendPrompt`: the four independent `if`s
on `event.type` applied in source order. -/
def sendHandle (st : SendState) (e : RawEvent) : SendState :=
  sendHandleErr (sendHandleIdle (sendHandleMsg (sendHandleDelta st e) e) e) e

def runSend (events : List RawEvent) : SendState :=
  events.foldl sendHandle initSend

/-- The end-of-turn step of `sendPrompt` once `sendAndWait` has resolved:
if no `session.idle` was observed, the 1-second fallback resolves with
the response accumulated so far. -/
def sendFinish (st : SendState) : Option (Except Str Str) :=
  if st.receivedIdle then st.settled
  else (resolveSend st st.fullResponse).settled

def sendPrompt (events : List RawEvent) : Option (Except Str Str) :=
  sendFinish (runSend events)

/-- The grace period `sendPrompt` waits for an idle event after
`sendAndWait` resolves. -/
def sendPromptGraceMs : Nat := 1000

/-!
Session registry (`this.sessions`), modelled as an association list with
JS `Map` semantics (`set` replaces, `delete` removes, `has`/`get` find
the entry).  Session identifiers are produced by a generator standing for
`` `session_${Date.now()}_${random}` ``; the JS generator gives no hard
uniqueness guarantee, so theorems about fresh allocation take the
freshness of the generated identifier as a hypothesis.  The `destroyed`
field is ghost state recording every underlying assistant-session handle
the service explicitly releases; no code path of `copilot-service.js`
ever destroys a session handle, so no operation touches it. -/

structure SessionData where
  handle : Nat
  model : Str
  messageCount : Nat
deriving DecidableEq

structure Registry where
  sessions : List (Str × SessionData)
  nextHandle : Nat
  seed : Nat
  destroyed : List Nat
deriving DecidableEq

def findSession (m : List (Str × SessionData)) (k : Str) : Option SessionData :=
  match m with
  | [] => none
  | (k', v) :: rest => if k' = k then some v else findSession rest k

/-- JS `Map.has`. -/
def mapHas (m : List (Str × SessionData)) (k : Str) : Bool :=
  (findSession m k).isSome

def removeKey (m : List (Str × SessionData)) (k : Str) :
    List (Str × SessionData) :=
  m.filter (fun p => decide ¬(p.1 = k))

/-- JS `Map.set` (replaces any entry under the same key). -/
def mapSet (m : List (Str × SessionData)) (k : Str) (v : SessionData) :
    List (Str × SessionData) :=
  (k, v) :: removeKey m k

/-- The generated session identifier, standing for
`` `session_${Date.now()}_${random}` ``. -/
def genId (n : Nat) : Str := "session_".toList ++ Nat.toDigits 10 n

/-- `createNewSession`: generates a fresh identifier, requests one new
underlying handle from the client, stores the session with message
count 0 and returns the identifier. -/
def createNewSession (reg : Registry) (model : Str) : Str × Registry :=
  (genId reg.seed,
   { reg with
       seed := reg.seed + 1
       nextHandle := reg.nextHandle + 1
       sessions := mapSet reg.sessions (genId reg.seed)
         ⟨reg.nextHandle, model, 0⟩ })

/-- `getOrCreateSession`: if `sessionId` is truthy (non-empty) and known,
return it unchanged; otherwise behave as `createNewSession`. -/
def getOrCreateSession (reg : Registry) (sessionId : Option Str)
    (model : Str) : Str × Registry :=
  match sessionId with
  | some sid =>
    if sid ≠ [] ∧ mapHas reg.sessions sid then (sid, reg)
    else createNewSession reg model
  | none => createNewSession reg model

/-- `deleteSession`: remove the session if present; report whether one
existed. -/
def deleteSession (reg : Registry) (sid : Str) : Bool × Registry :=
  if mapHas reg.sessions sid then
    (true, { reg with sessions := removeKey reg.sessions sid })
  else (false, reg)

/-!
Per-step facts about the streaming handler: the terminal flags are
monotone; once `hasError` is set, `hasCompleted` can no longer change
(completion and the timeout both require `!hasError`); each event invokes
at most one callback; no chunk is forwarded from a terminal state; and
the terminal callbacks of one step are characterized exactly by how the
two flags change.
-/

set_option maxHeartbeats 1000000

theorem handleEvent_mono_c (p : Str) (st : StreamState) (e : RawEvent)
    (h : st.hasCompleted = true) : (handleEvent p st e).1.hasCompleted = true := by
  unfold handleEvent
  repeat' split
  all_goals (first | rfl | simp_all)

theorem handleEvent_mono_e (p : Str) (st : StreamState) (e : RawEvent)
    (h : st.hasError = true) : (handleEvent p st e).1.hasError = true := by
  unfold handleEvent
  repeat' split
  all_goals (first | rfl | simp_all)

theorem handleEvent_blocks (p : Str) (st : StreamState) (e : RawEvent)
    (h : st.hasError = true) :
    (handleEvent p st e).1.hasCompleted = st.hasCompleted := by
  unfold handleEvent
  repeat' split
  all_goals (first | rfl | simp_all)

theorem handleEvent_single (p : Str) (st : StreamState) (e : RawEvent) :
    (handleEvent p st e).2 = [] ∨ ∃ o, (handleEvent p st e).2 = [o] := by
  unfold handleEvent
  repeat' split
  all_goals (first | (left; rfl) | (right; exact ⟨_, rfl⟩))

theorem handleEvent_chunkfree (p : Str) (st : StreamState) (e : RawEvent)
    (h : st.hasCompleted = true ∨ st.hasError = true) :
    ∀ x ∈ (handleEvent p st e).2, isChunk x = false := by
  unfold handleEvent
  repeat' split
  all_goals (intro x hx; simp_all [isChunk])

theorem handleEvent_termstate (p : Str) (st : StreamState) (e : RawEvent) :
    ∀ o ∈ (handleEvent p st e).2, isTerminal o = true →
      ((handleEvent p st e).1.hasCompleted = true ∨
       (handleEvent p st e).1.hasError = true) := by
  unfold handleEvent
  repeat' split
  all_goals (intro o ho ht; simp_all [isTerminal])

theorem handleEvent_term_aux (p : Str) (st : StreamState) (e : RawEvent)
    (st' : StreamState) (outs : List Out) (hh : handleEvent p st e = (st', outs)) :
    outs.filter isTerminal =
      (if st.hasCompleted = false ∧ st'.hasCompleted = true
        then [Out.complete] else []) ++
      (if st.hasError = false ∧ st'.hasError = true
        then [Out.error (evErrMsg e)] else []) := by
  unfold handleEvent at hh
  unfold evErrMsg
  repeat' split at hh
  all_goals (cases hh; simp_all [isTerminal])

theorem stepSig_mono_c (p : Str) (st : StreamState) (s : Sig)
    (h : st.hasCompleted = true) : (stepSig p st s).1.hasCompleted = true := by
  cases s with
  | ev e => exact handleEvent_mono_c p st e h
  | timeout =>
    simp only [stepSig]
    split
    next => simp_all
    next => exact h

theorem stepSig_mono_e (p : Str) (st : StreamState) (s : Sig)
    (h : st.hasError = true) : (stepSig p st s).1.hasError = true := by
  cases s with
  | ev e => exact handleEvent_mono_e p st e h
  | timeout =>
    simp only [stepSig]
    split
    next => simp_all
    next => exact h

theorem stepSig_blocks (p : Str) (st : StreamState) (s : Sig)
    (h : st.hasError = true) :
    (stepSig p st s).1.hasCompleted = st.hasCompleted := by
  cases s with
  | ev e => exact handleEvent_blocks p st e h
  | timeout =>
    simp only [stepSig]
    split
    next hc => simp_all
    next => rfl

theorem stepSig_single (p : Str) (st : StreamState) (s : Sig) :
    (stepSig p st s).2 = [] ∨ ∃ o, (stepSig p st s).2 = [o] := by
  cases s with
  | ev e => exact handleEvent_single p st e
  | timeout =>
    simp only [stepSig]
    split
    next => right; exact ⟨_, rfl⟩
    next => left; rfl

theorem stepSig_chunkfree (p : Str) (st : StreamState) (s : Sig)
    (h : st.hasCompleted = true ∨ st.hasError = true) :
    ∀ x ∈ (stepSig p st s).2, isChunk x = false := by
  cases s with
  | ev e => exact handleEvent_chunkfree p st e h
  | timeout =>
    simp only [stepSig]
    split
    next hc => simp_all
    next => intro x hx; simp at hx

theorem stepSig_termstate (p : Str) (st : StreamState) (s : Sig) :
    ∀ o ∈ (stepSig p st s).2, isTerminal o = true →
      ((stepSig p st s).1.hasCompleted = true ∨
       (stepSig p st s).1.hasError = true) := by
  cases s with
  | ev e => exact handleEvent_termstate p st e
  | timeout =>
    simp only [stepSig]
    split
    next => intro o ho ht; left; rfl
    next => intro o ho ht; simp at ho

theorem stepSig_term (p : Str) (st : StreamState) (s : Sig) :
    ((stepSig p st s).2).filter isTerminal =
      (if st.hasCompleted = false ∧ (stepSig p st s).1.hasCompleted = true
        then [Out.complete] else []) ++
      (if st.hasError = false ∧ (stepSig p st s).1.hasError = true
        then [Out.error (sigErrMsg s)] else []) := by
  cases s with
  | ev e => exact handleEvent_term_aux p st e _ _ rfl
  | timeout =>
    simp only [stepSig, sigErrMsg]
    split
    next hc => simp_all [isTerminal]
    next hc =>
      rcases hc0 : st.hasCompleted <;> rcases he0 : st.hasError <;>
        simp_all [isTerminal]

theorem stepSig_terminal_preserve (p : Str) (st : StreamState) (s : Sig)
    (h : st.hasCompleted = true ∨ st.hasError = true) :
    (stepSig p st s).1.hasCompleted = true ∨ (stepSig p st s).1.hasError = true := by
  rcases h with h | h
  · exact Or.inl (stepSig_mono_c p st s h)
  · exact Or.inr (stepSig_mono_e p st s h)

/-!
Trace-level facts, by induction over the schedule.
-/

theorem runSigs_mono_c (p : Str) :
    ∀ (sigs : List Sig) (st : StreamState), st.hasCompleted = true →
      (runSigs p st sigs).1.hasCompleted = true
  | [], _, h => h
  | s :: rest, st, h =>
    runSigs_mono_c p rest (stepSig p st s).1 (stepSig_mono_c p st s h)

theorem runSigs_mono_e (p : Str) :
    ∀ (sigs : List Sig) (st : StreamState), st.hasError = true →
      (runSigs p st sigs).1.hasError = true
  | [], _, h => h
  | s :: rest, st, h =>
    runSigs_mono_e p rest (stepSig p st s).1 (stepSig_mono_e p st s h)

theorem runSigs_blocks (p : Str) :
    ∀ (sigs : List Sig) (st : StreamState), st.hasError = true →
      (runSigs p st sigs).1.hasCompleted = st.hasCompleted
  | [], _, _ => rfl
  | s :: rest, st, h =>
    (runSigs_blocks p rest (stepSig p st s).1 (stepSig_mono_e p st s h)).trans
      (stepSig_blocks p st s h)

theorem termList_append (c0 e0 c1 e1 c2 e2 : Bool) (mA mB : Str)
    (h1c : c0 = true → c1 = true) (h1e : e0 = true → e1 = true)
    (h2c : c1 = true → c2 = true)
    (h2e : e1 = true → e2 = true) (hbl : e1 = true → c2 = c1) :
    ((if c0 = false ∧ c1 = true then [Out.complete] else []) ++
     (if e0 = false ∧ e1 = true then [Out.error mA] else [])) ++
    ((if c1 = false ∧ c2 = true then [Out.complete] else []) ++
     (if e1 = false ∧ e2 = true then [Out.error mB] else [])) =
    (if c0 = false ∧ c2 = true then [Out.complete] else []) ++
    (if e0 = false ∧ e2 = true then
      [Out.error (if e0 = false ∧ e1 = true then mA else mB)] else []) := by
  rcases c0 <;> rcases e0 <;> rcases c1 <;> rcases e1 <;> rcases c2 <;> rcases e2
  all_goals (try rfl)
  all_goals (first
    | exact absurd (h1c rfl) (by decide)
    | exact absurd (h2c rfl) (by decide)
    | exact absurd (h2e rfl) (by decide)
    | exact absurd (hbl rfl) (by decide)
    | exact absurd (h1e rfl) (by decide))

theorem runSigs_term (p : Str) :
    ∀ (sigs : List Sig) (st : StreamState),
      ∃ m, ((runSigs p st sigs).2).filter isTerminal =
        (if st.hasCompleted = false ∧ (runSigs p st sigs).1.hasCompleted = true
          then [Out.complete] else []) ++
        (if st.hasError = false ∧ (runSigs p st sigs).1.hasError = true
          then [Out.error m] else []) := by
  intro sigs
  induction sigs with
  | nil => exact fun st => ⟨[], by simp [runSigs]⟩
  | cons s rest ih =>
    intro st
    obtain ⟨m2, h2⟩ := ih (stepSig p st s).1
    refine ⟨if st.hasError = false ∧ (stepSig p st s).1.hasError = true
      then sigErrMsg s else m2, ?_⟩
    simp only [runSigs, List.filter_append, stepSig_term p st s, h2]
    exact termList_append st.hasCompleted st.hasError
      (stepSig p st s).1.hasCompleted (stepSig p st s).1.hasError
      (runSigs p (stepSig p st s).1 rest).1.hasCompleted
      (runSigs p (stepSig p st s).1 rest).1.hasError
      (sigErrMsg s) m2
      (stepSig_mono_c p st s)
      (stepSig_mono_e p st s)
      (runSigs_mono_c p rest (stepSig p st s).1)
      (runSigs_mono_e p rest (stepSig p st s).1)
      (runSigs_blocks p rest (stepSig p st s).1)

theorem runSigs_terminal_preserve (p : Str) (sigs : List Sig) (st : StreamState)
    (h : st.hasCompleted = true ∨ st.hasError = true) :
    (runSigs p st sigs).1.hasCompleted = true ∨
      (runSigs p st sigs).1.hasError = true := by
  rcases h with h | h
  · exact Or.inl (runSigs_mono_c p sigs st h)
  · exact Or.inr (runSigs_mono_e p sigs st h)

theorem runSigs_chunkfree (p : Str) :
    ∀ (sigs : List Sig) (st : StreamState),
      (st.hasCompleted = true ∨ st.hasError = true) →
      ∀ x ∈ (runSigs p st sigs).2, isChunk x = false := by
  intro sigs
  induction sigs with
  | nil => intro st _ x hx; simp [runSigs] at hx
  | cons s rest ih =>
    intro st h x hx
    simp only [runSigs] at hx
    rcases List.mem_append.mp hx with hx | hx
    · exact stepSig_chunkfree p st s h x hx
    · exact ih (stepSig p st s).1 (stepSig_terminal_preserve p st s h) x hx

theorem stepSig_timeout_terminal (p : Str) (st : StreamState) :
    (stepSig p st Sig.timeout).1.hasCompleted = true ∨
      (stepSig p st Sig.timeout).1.hasError = true := by
  simp only [stepSig]
  split
  next => left; rfl
  next h =>
    rcases hc : st.hasCompleted <;> rcases he : st.hasError <;> simp_all

theorem runSigs_timeout_terminal (p : Str) :
    ∀ (sigs : List Sig) (st : StreamState), Sig.timeout ∈ sigs →
      (runSigs p st sigs).1.hasCompleted = true ∨
        (runSigs p st sigs).1.hasError = true := by
  intro sigs
  induction sigs with
  | nil => intro st h; simp at h
  | cons s rest ih =>
    intro st h
    rcases List.mem_cons.mp h with h | h
    · subst h
      exact runSigs_terminal_preserve p rest _ (stepSig_timeout_terminal p st)
    · exact ih _ h

theorem runSigs_no_chunk_after_term (p : Str) :
    ∀ (sigs : List Sig) (st : StreamState) (l1 : List Out) (t : Out)
      (l2 : List Out),
      (runSigs p st sigs).2 = l1 ++ t :: l2 → isTerminal t = true →
      ∀ x ∈ l2, isChunk x = false := by
  intro sigs
  induction sigs with
  | nil =>
    intro st l1 t l2 h ht
    rw [show (runSigs p st []).2 = [] from rfl] at h
    exact absurd h.symm (List.append_ne_nil_of_right_ne_nil l1 (by simp))
  | cons s rest ih =>
    intro st l1 t l2 h ht
    have hrw : (runSigs p st (s :: rest)).2 =
        (stepSig p st s).2 ++ (runSigs p (stepSig p st s).1 rest).2 := rfl
    rw [hrw] at h
    rcases stepSig_single p st s with hs | ⟨o, hs⟩
    · rw [hs, List.nil_append] at h
      exact ih _ l1 t l2 h ht
    · rw [hs] at h
      cases l1 with
      | nil =>
        rw [List.nil_append] at h
        have ho : o = t := (List.cons.injEq _ _ _ _ ▸ h).1
        have hl : (runSigs p (stepSig p st s).1 rest).2 = l2 :=
          (List.cons.injEq _ _ _ _ ▸ h).2
        have hterm := stepSig_termstate p st s t
          (by rw [hs, ho]; exact List.mem_singleton.mpr rfl) ht
        intro x hx
        exact runSigs_chunkfree p rest _ hterm x (hl ▸ hx)
      | cons a l1' =>
        have hl : (runSigs p (stepSig p st s).1 rest).2 = l1' ++ t :: l2 := by
          have := (List.cons.injEq _ _ _ _ ▸ h).2
          simpa using this
        exact ih _ l1' t l2 hl ht

theorem runSigs_append (p : Str) :
    ∀ (a b : List Sig) (st : StreamState),
      runSigs p st (a ++ b) =
        ((runSigs p (runSigs p st a).1 b).1,
         (runSigs p st a).2 ++ (runSigs p (runSigs p st a).1 b).2) := by
  intro a
  induction a with
  | nil => intro b st; simp [runSigs]
  | cons s rest ih =>
    intro b st
    simp only [List.cons_append, runSigs, List.append_eq,
      ih b (stepSig p st s).1, List.append_assoc]

theorem handleEvent_fullmsg_ignored (p : Str) (st : StreamState) (e : RawEvent)
    (hty : isMsgType (resolvedType e))
    (hd : st.hasReceivedDeltas = true) :
    handleEvent p st e = (st, []) := by
  have h1 : ¬ isDeltaType (resolvedType e) := by
    rcases hty with h | h <;> rw [h] <;> decide
  unfold handleEvent
  rw [if_neg h1, if_pos hty, if_neg (by simp [hd])]

/-- C1 (amended): over any turn schedule containing the safety-timeout
signal, the terminal callbacks of `sendPromptStreaming` are exactly one
`onComplete`, or exactly one `onError`, or an `onComplete` followed by a
single `onError` (an error event arriving after completion still fires
`onError`, which is the one divergence from exactly-once). -/
theorem streaming_terminal_callbacks (p : Str) (sigs : List Sig)
    (h : Sig.timeout ∈ sigs) :
    terminalsOf (sendPromptStreaming p sigs) = [Out.complete] ∨
    (∃ m, terminalsOf (sendPromptStreaming p sigs) = [Out.error m]) ∨
    (∃ m, terminalsOf (sendPromptStreaming p sigs) =
      [Out.complete, Out.error m]) := by
  obtain ⟨m, hm⟩ := runSigs_term p sigs initStream
  have hterm := runSigs_timeout_terminal p sigs initStream h
  unfold terminalsOf sendPromptStreaming
  rw [hm]
  rcases hc : (runSigs p initStream sigs).1.hasCompleted <;>
    rcases he : (runSigs p initStream sigs).1.hasError <;>
    simp_all [initStream]

theorem streaming_terminal_callbacks_witness :
    Sig.timeout ∈ [Sig.timeout] ∧
    terminalsOf (sendPromptStreaming [] [Sig.timeout]) = [Out.complete] := by
  refine ⟨List.mem_singleton.mpr rfl, ?_⟩
  rcases streaming_terminal_callbacks [] [Sig.timeout]
      (List.mem_singleton.mpr rfl) with h | ⟨m, hm⟩ | ⟨m, hm⟩
  · exact h
  · rw [show terminalsOf (sendPromptStreaming [] [Sig.timeout]) =
      [Out.complete] by decide] at hm
    simp at hm
  · rw [show terminalsOf (sendPromptStreaming [] [Sig.timeout]) =
      [Out.complete] by decide] at hm
    simp at hm

/-- C1 counterexample: a completion event followed by an error event
fires both `onComplete` and `onError` — two terminal callbacks, not
exactly one. -/
theorem streaming_double_terminal_counterexample :
    terminalsOf (sendPromptStreaming [] [Sig.ev idleEv, Sig.ev bareErrEv]) =
      [Out.complete, Out.error "Unknown error".toList] ∧
    (terminalsOf (sendPromptStreaming []
      [Sig.ev idleEv, Sig.ev bareErrEv])).length ≠ 1 := by
  exact ⟨by decide, by decide⟩

/-- C5: once a terminal callback has fired for a streaming turn, no
further `onChunk` call is made, whatever signals follow. -/
theorem no_chunk_after_terminal (p : Str) (sigs : List Sig) (l1 : List Out)
    (t : Out) (l2 : List Out)
    (hsplit : sendPromptStreaming p sigs = l1 ++ t :: l2)
    (ht : isTerminal t = true) :
    ∀ x ∈ l2, isChunk x = false :=
  runSigs_no_chunk_after_term p sigs initStream l1 t l2 hsplit ht

theorem no_chunk_after_terminal_witness :
    sendPromptStreaming [] [Sig.ev idleEv, Sig.ev (deltaEv "x".toList),
        Sig.ev bareErrEv] =
      [] ++ Out.complete :: [Out.error "Unknown error".toList] ∧
    isTerminal Out.complete = true ∧
    isChunk (Out.error "Unknown error".toList) = false :=
  ⟨by decide, rfl,
   no_chunk_after_terminal [] [Sig.ev idleEv, Sig.ev (deltaEv "x".toList),
     Sig.ev bareErrEv] [] Out.complete [Out.error "Unknown error".toList]
     (by decide) rfl (Out.error "Unknown error".toList)
     (List.mem_singleton.mpr rfl)⟩

/-- C6: a full-message event arriving after delta content has been
observed in the turn is ignored entirely: it changes nothing about the
turn's outputs. -/
theorem full_message_ignored_after_deltas (p : Str) (l1 l2 : List Sig)
    (e : RawEvent) (hty : isMsgType (resolvedType e))
    (hd : (runSigs p initStream l1).1.hasReceivedDeltas = true) :
    sendPromptStreaming p (l1 ++ Sig.ev e :: l2) =
      sendPromptStreaming p (l1 ++ l2) := by
  have hstep : stepSig p (runSigs p initStream l1).1 (Sig.ev e) =
      ((runSigs p initStream l1).1, []) :=
    handleEvent_fullmsg_ignored p _ e hty hd
  show (runSigs p initStream (l1 ++ Sig.ev e :: l2)).2 =
    (runSigs p initStream (l1 ++ l2)).2
  rw [runSigs_append, runSigs_append]
  have h2 : runSigs p (runSigs p initStream l1).1 (Sig.ev e :: l2) =
      runSigs p (runSigs p initStream l1).1 l2 := by
    simp [runSigs, hstep]
  rw [h2]

theorem full_message_ignored_after_deltas_witness :
    isMsgType (resolvedType (fullMsgEv "y".toList)) ∧
    (runSigs "p".toList initStream
      [Sig.ev (deltaEv "x".toList)]).1.hasReceivedDeltas = true ∧
    sendPromptStreaming "p".toList ([Sig.ev (deltaEv "x".toList)] ++
        Sig.ev (fullMsgEv "y".toList) :: [Sig.ev idleEv]) =
      sendPromptStreaming "p".toList
        ([Sig.ev (deltaEv "x".toList)] ++ [Sig.ev idleEv]) :=
  ⟨by decide, by decide,
   full_message_ignored_after_deltas "p".toList [Sig.ev (deltaEv "x".toList)]
     [Sig.ev idleEv] (fullMsgEv "y".toList) (by decide) (by decide)⟩

theorem resolvedType_fullMsgEv (C : Str) :
    resolvedType (fullMsgEv C) = "assistant.message".toList := rfl

theorem resolvedType_deltaEv (C : Str) :
    resolvedType (deltaEv C) = "assistant.message_delta".toList := rfl

theorem msgContentOf_fullMsgEv (C : Str) : msgContentOf (fullMsgEv C) = C := by
  simp only [msgContentOf, fullMsgEv, eventDataOf, jsOr]
  split <;> simp_all

theorem deltaContentOf_deltaEv (C : Str) : deltaContentOf (deltaEv C) = C := by
  simp only [deltaContentOf, deltaEv, eventDataOf, jsOr]
  split <;> simp_all

theorem handleEvent_fullMsg_first (P C : Str) (hC : ¬ C = [])
    (hsw : echoDetected P C = true) :
    handleEvent P initStream (fullMsgEv C) =
      (initStream,
       if strippedRemainder P C = [] then []
       else [Out.chunk (strippedRemainder P C)]) := by
  unfold handleEvent
  rw [resolvedType_fullMsgEv, msgContentOf_fullMsgEv]
  rw [if_neg (show ¬ isDeltaType "assistant.message".toList by decide),
      if_pos (show isMsgType "assistant.message".toList by decide),
      if_pos (show initStream.hasCompleted = false ∧
        initStream.hasError = false ∧
        initStream.hasReceivedDeltas = false by exact ⟨rfl, rfl, rfl⟩),
      if_neg hC, if_pos hsw]

theorem handleEvent_delta_first (P C : Str) (hC : ¬ C = [])
    (hsw : echoDetected P C = true) :
    handleEvent P initStream (deltaEv C) =
      ({ initStream with hasReceivedDeltas := true, promptStripped := true },
       if strippedRemainder P C = [] then []
       else [Out.chunk (strippedRemainder P C)]) := by
  unfold handleEvent
  rw [resolvedType_deltaEv, deltaContentOf_deltaEv]
  rw [if_pos (show isDeltaType "assistant.message_delta".toList by decide),
      if_pos (show initStream.hasCompleted = false ∧
        initStream.hasError = false by exact ⟨rfl, rfl⟩),
      if_neg hC,
      if_pos (show initStream.promptStripped = false from rfl)]
  rw [show initStream.accumulatedContent ++ C = C from rfl]
  rw [if_pos hsw]
  rfl

/-- C2 (amended): for a response delivered as a single full-message event
or as a single delta event whose content `C` trim-decomposes as an echo
`Q` of the prompt (case-insensitively equal to the trimmed prompt)
followed by `T`, the concatenated `onChunk` output of the turn is `T`
with leading whitespace trimmed.  Across multiple delta events the filter
does not withhold: deltas received while the buffer is still a proper
prefix of the prompt are forwarded unmodified. -/
theorem echo_strip_single_event (P C Q T : Str)
    (hsplit : jsTrim C = Q ++ T)
    (hcase : jsToLower Q = jsToLower (jsTrim P)) :
    joinChunks (sendPromptStreaming P [Sig.ev (fullMsgEv C)]) = jsTrimStart T ∧
    joinChunks (sendPromptStreaming P [Sig.ev (deltaEv C)]) = jsTrimStart T := by
  by_cases hC : C = []
  · subst hC
    have hT : T = [] := by
      have h0 : Q ++ T = [] := hsplit.symm
      exact (List.append_eq_nil.mp h0).2
    subst hT
    have h1 : handleEvent P initStream (fullMsgEv []) = (initStream, []) := by
      unfold handleEvent
      rw [resolvedType_fullMsgEv, msgContentOf_fullMsgEv]
      rw [if_neg (show ¬ isDeltaType "assistant.message".toList by decide),
          if_pos (show isMsgType "assistant.message".toList by decide),
          if_pos (show initStream.hasCompleted = false ∧
            initStream.hasError = false ∧
            initStream.hasReceivedDeltas = false from ⟨rfl, rfl, rfl⟩),
          if_pos rfl]
    have h2 : handleEvent P initStream (deltaEv []) = (initStream, []) := by
      unfold handleEvent
      rw [resolvedType_deltaEv, deltaContentOf_deltaEv]
      rw [if_pos (show isDeltaType "assistant.message_delta".toList by decide),
          if_pos (show initStream.hasCompleted = false ∧
            initStream.hasError = false from ⟨rfl, rfl⟩),
          if_pos rfl]
    constructor
    · show joinChunks ((handleEvent P initStream (fullMsgEv [])).2 ++ []) = _
      rw [h1]
      rfl
    · show joinChunks ((handleEvent P initStream (deltaEv [])).2 ++ []) = _
      rw [h2]
      rfl
  · have hlen : Q.length = (jsTrim P).length := by
      have h := congrArg List.length hcase
      simpa [jsToLower] using h
    have hdist : jsToLower (Q ++ T) = jsToLower Q ++ jsToLower T :=
      List.map_append _ _ _
    have hsw : echoDetected P C = true := by
      unfold echoDetected jsStartsWith
      rw [hsplit, hdist, ← hcase]
      exact List.isPrefixOf_iff_prefix.mpr
        (List.prefix_append (jsToLower Q) (jsToLower T))
    have hrem : strippedRemainder P C = jsTrimStart T := by
      unfold strippedRemainder
      rw [hsplit, ← hlen, List.drop_left]
    have hjoin : ∀ r : Str,
        joinChunks (if r = [] then [] else [Out.chunk r]) = r := by
      intro r
      split
      next h => simp [joinChunks, chunksOf, h]
      next h => simp [joinChunks, chunksOf]
    constructor
    · show joinChunks ((handleEvent P initStream (fullMsgEv C)).2 ++ []) = _
      rw [handleEvent_fullMsg_first P C hC hsw]
      simp only [List.append_nil]
      rw [hrem] at *
      exact hjoin (jsTrimStart T)
    · show joinChunks ((handleEvent P initStream (deltaEv C)).2 ++ []) = _
      rw [handleEvent_delta_first P C hC hsw]
      simp only [List.append_nil]
      rw [hrem] at *
      exact hjoin (jsTrimStart T)

theorem echo_strip_single_event_witness :
    jsTrim "HI there".toList = "HI".toList ++ " there".toList ∧
    jsToLower "HI".toList = jsToLower (jsTrim "hi".toList) ∧
    joinChunks (sendPromptStreaming "hi".toList
      [Sig.ev (fullMsgEv "HI there".toList)]) = jsTrimStart " there".toList ∧
    joinChunks (sendPromptStreaming "hi".toList
      [Sig.ev (deltaEv "HI there".toList)]) = jsTrimStart " there".toList := by
  refine ⟨by decide, by decide, ?_⟩
  exact echo_strip_single_event "hi".toList "HI there".toList "HI".toList
    " there".toList (by decide) (by decide)

/-- C2 counterexample: prompt `"Hi there"`, echoing response `"Hi there!"`
split as deltas `"Hi"` and `" there!"`: the emitted chunks concatenate to
`"Hi!"`, not to the echo-stripped remainder `"!"` — the part of the echo
arriving in the first delta is forwarded, not withheld. -/
theorem echo_strip_split_counterexample :
    jsTrim "Hi there!".toList = jsTrim "Hi there".toList ++ "!".toList ∧
    joinChunks (sendPromptStreaming "Hi there".toList
      [Sig.ev (deltaEv "Hi".toList), Sig.ev (deltaEv " there!".toList)]) =
      "Hi!".toList ∧
    ¬ ("Hi!".toList = jsTrimStart "!".toList) := by
  exact ⟨by decide, by decide, by decide⟩

/-- The known discriminator values of the streaming classifier. -/
def knownType (t : Str) : Prop :=
  isDeltaType t ∨ isMsgType t ∨ isIdleType t ∨ isToolType t ∨
    isStatusType t ∨ t = "error".toList

instance (t : Str) : Decidable (knownType t) := by
  unfold knownType; infer_instance

/-- C9: an event whose resolved type matches no known category is never
fatal: the turn state is unchanged (no error or terminal transition), and
its text-like content (`content`/`text`/`message`/`output`) is forwarded
as a chunk exactly when some is present and the turn has not yet
terminated; otherwise the event is dropped. -/
theorem unrecognized_event_harmless (p : Str) (st : StreamState)
    (e : RawEvent) (h : ¬ knownType (resolvedType e)) :
    handleEvent p st e =
      (st,
       if unkContentOf e ≠ [] ∧ st.hasCompleted = false ∧ st.hasError = false
       then [Out.chunk (unkContentOf e)] else []) := by
  unfold knownType at h
  push_neg at h
  obtain ⟨h1, h2, h3, h4, h5, h6⟩ := h
  unfold handleEvent
  rw [if_neg h1, if_neg h2, if_neg h3, if_neg h4, if_neg h5, if_neg h6]

theorem unrecognized_event_harmless_witness :
    ¬ knownType (resolvedType
      ({ type := some "telemetry".toList
         data := some { content := some "note".toList } } : RawEvent)) ∧
    handleEvent [] initStream
      { type := some "telemetry".toList
        data := some { content := some "note".toList } } =
      (initStream, [Out.chunk "note".toList]) := by
  constructor
  · decide
  · rw [unrecognized_event_harmless [] initStream _ (by decide)]
    decide


/-!
Facts about the non-streaming `sendPrompt` promise.
-/

theorem sendHandle_settled_preserve (st : SendState) (e : RawEvent) (v : Except Str Str)
    (h : st.settled = some v) : (sendHandle st e).settled = some v := by
  unfold sendHandle sendHandleErr sendHandleIdle sendHandleMsg sendHandleDelta
  unfold resolveSend rejectSend
  repeat' split
  all_goals simp_all

theorem sendHandle_idle_preserve (st : SendState) (e : RawEvent)
    (h : st.receivedIdle = true) : (sendHandle st e).receivedIdle = true := by
  unfold sendHandle sendHandleErr sendHandleIdle sendHandleMsg sendHandleDelta
  unfold resolveSend rejectSend
  repeat' split
  all_goals (cases hst : st.settled <;> simp_all)

theorem foldSend_settled_preserve :
    ∀ (events : List RawEvent) (st : SendState) (v : Except Str Str),
      st.settled = some v → (events.foldl sendHandle st).settled = some v
  | [], _, _, h => h
  | e :: rest, st, v, h =>
    foldSend_settled_preserve rest (sendHandle st e) v
      (sendHandle_settled_preserve st e v h)

theorem sendFinish_of_settled (st : SendState) (v : Except Str Str)
    (h : st.settled = some v) : sendFinish st = some v := by
  unfold sendFinish resolveSend
  repeat' split
  all_goals simp_all

theorem sendHandleDelta_neg (st : SendState) (e : RawEvent)
    (h : ¬ e.type = some "assistant.message_delta".toList) :
    sendHandleDelta st e = st := if_neg h

theorem sendHandleMsg_neg (st : SendState) (e : RawEvent)
    (h : ¬ e.type = some "assistant.message".toList) :
    sendHandleMsg st e = st := if_neg h

theorem sendHandleIdle_neg (st : SendState) (e : RawEvent)
    (h : ¬ e.type = some "session.idle".toList) :
    sendHandleIdle st e = st := if_neg h

theorem sendHandleErr_neg (st : SendState) (e : RawEvent)
    (h : ¬ e.type = some "error".toList) :
    sendHandleErr st e = st := if_neg h

theorem sendHandle_delta (st : SendState) (e : RawEvent)
    (h : e.type = some "assistant.message_delta".toList) :
    sendHandle st e =
      { st with
          fullResponse := st.fullResponse ++ jsUndef (sendDataOf e).deltaContent
          chunks := st.chunks ++ [jsUndef (sendDataOf e).deltaContent] } := by
  unfold sendHandle
  rw [sendHandleErr_neg _ e (by rw [h]; decide),
      sendHandleIdle_neg _ e (by rw [h]; decide),
      sendHandleMsg_neg _ e (by rw [h]; decide)]
  exact if_pos h

theorem sendHandle_msg (st : SendState) (e : RawEvent)
    (h : e.type = some "assistant.message".toList) :
    sendHandle st e =
      { st with fullResponse := jsOr (sendDataOf e).content [] } := by
  unfold sendHandle
  rw [sendHandleErr_neg _ e (by rw [h]; decide),
      sendHandleIdle_neg _ e (by rw [h]; decide)]
  unfold sendHandleMsg
  rw [if_pos h, sendHandleDelta_neg st e (by rw [h]; decide)]

theorem sendHandle_idle (st : SendState) (e : RawEvent)
    (h : e.type = some "session.idle".toList) (hs : st.settled = none) :
    sendHandle st e =
      { st with receivedIdle := true, settled := some (.ok st.fullResponse) } := by
  unfold sendHandle
  rw [sendHandleErr_neg _ e (by rw [h]; decide)]
  unfold sendHandleIdle
  rw [if_pos h, sendHandleMsg_neg _ e (by rw [h]; decide),
      sendHandleDelta_neg st e (by rw [h]; decide)]
  unfold resolveSend
  rw [hs]

theorem sendHandle_error (st : SendState) (e : RawEvent)
    (h : e.type = some "error".toList) (hs : st.settled = none) :
    sendHandle st e =
      { st with settled := some (.error
          (jsOr (sendDataOf e).message "Unknown error".toList)) } := by
  unfold sendHandle sendHandleErr
  rw [if_pos h, sendHandleIdle_neg _ e (by rw [h]; decide),
      sendHandleMsg_neg _ e (by rw [h]; decide),
      sendHandleDelta_neg st e (by rw [h]; decide)]
  unfold rejectSend
  rw [hs]

theorem sendHandle_other (st : SendState) (e : RawEvent)
    (h1 : ¬ e.type = some "assistant.message_delta".toList)
    (h2 : ¬ e.type = some "assistant.message".toList)
    (h3 : ¬ e.type = some "session.idle".toList)
    (h4 : ¬ e.type = some "error".toList) :
    sendHandle st e = st := by
  unfold sendHandle
  rw [sendHandleErr_neg _ e h4, sendHandleIdle_neg _ e h3,
      sendHandleMsg_neg _ e h2, sendHandleDelta_neg st e h1]

/-- The plain algorithm `sendPrompt` implements: scan the events in
order, accumulating the response; the first `session.idle` resolves with
the response so far, the first `error` rejects with its message, and if
neither occurs the accumulated response is returned. -/
def sendPromptSpec (resp : Str) : List RawEvent → Except Str Str
  | [] => .ok resp
  | e :: rest =>
    if e.type = some "assistant.message_delta".toList then
      sendPromptSpec (resp ++ jsUndef (sendDataOf e).deltaContent) rest
    else if e.type = some "assistant.message".toList then
      sendPromptSpec (jsOr (sendDataOf e).content []) rest
    else if e.type = some "session.idle".toList then .ok resp
    else if e.type = some "error".toList then
      .error (jsOr (sendDataOf e).message "Unknown error".toList)
    else sendPromptSpec resp rest

theorem sendPrompt_run_eq :
    ∀ (events : List RawEvent) (r : Str) (ch : List Str),
      sendFinish (events.foldl sendHandle ⟨r, ch, false, none⟩) =
        some (sendPromptSpec r events) := by
  intro events
  induction events with
  | nil =>
    intro r ch
    simp [sendFinish, resolveSend, sendPromptSpec]
  | cons e rest ih =>
    intro r ch
    by_cases h1 : e.type = some "assistant.message_delta".toList
    · rw [show (e :: rest).foldl sendHandle ⟨r, ch, false, none⟩ =
          rest.foldl sendHandle (sendHandle ⟨r, ch, false, none⟩ e) from rfl,
        sendHandle_delta _ e h1]
      rw [show sendPromptSpec r (e :: rest) =
          sendPromptSpec (r ++ jsUndef (sendDataOf e).deltaContent) rest by
        simp only [sendPromptSpec]; rw [if_pos h1]]
      exact ih _ _
    · by_cases h2 : e.type = some "assistant.message".toList
      · rw [show (e :: rest).foldl sendHandle ⟨r, ch, false, none⟩ =
            rest.foldl sendHandle (sendHandle ⟨r, ch, false, none⟩ e) from rfl,
          sendHandle_msg _ e h2]
        rw [show sendPromptSpec r (e :: rest) =
            sendPromptSpec (jsOr (sendDataOf e).content []) rest by
          simp only [sendPromptSpec]; rw [if_neg h1, if_pos h2]]
        exact ih _ _
      · by_cases h3 : e.type = some "session.idle".toList
        · rw [show (e :: rest).foldl sendHandle ⟨r, ch, false, none⟩ =
              rest.foldl sendHandle (sendHandle ⟨r, ch, false, none⟩ e) from rfl,
            sendHandle_idle _ e h3 rfl]
          rw [show sendPromptSpec r (e :: rest) = .ok r by
            simp only [sendPromptSpec]; rw [if_neg h1, if_neg h2, if_pos h3]]
          exact sendFinish_of_settled _ _
            (foldSend_settled_preserve rest _ _ rfl)
        · by_cases h4 : e.type = some "error".toList
          · rw [show (e :: rest).foldl sendHandle ⟨r, ch, false, none⟩ =
                rest.foldl sendHandle (sendHandle ⟨r, ch, false, none⟩ e) from rfl,
              sendHandle_error _ e h4 rfl]
            rw [show sendPromptSpec r (e :: rest) =
                .error (jsOr (sendDataOf e).message "Unknown error".toList) by
              simp only [sendPromptSpec]; rw [if_neg h1, if_neg h2, if_neg h3, if_pos h4]]
            exact sendFinish_of_settled _ _
              (foldSend_settled_preserve rest _ _ rfl)
          · rw [show (e :: rest).foldl sendHandle ⟨r, ch, false, none⟩ =
                rest.foldl sendHandle (sendHandle ⟨r, ch, false, none⟩ e) from rfl,
              sendHandle_other _ e h1 h2 h3 h4]
            rw [show sendPromptSpec r (e :: rest) = sendPromptSpec r rest by
              simp only [sendPromptSpec]; rw [if_neg h1, if_neg h2, if_neg h3, if_neg h4]]
            exact ih _ _

/-- C3 (amended): over any turn whose `sendAndWait` resolves, the
`sendPrompt` promise always settles, and it settles exactly as the plain
scan `sendPromptSpec`: rejected with the first error event's reported
message (default `"Unknown error"`), or resolved with the complete
accumulated response text as received — no prompt-echo stripping is
applied on the non-streaming path. -/
theorem sendPrompt_settles_as_spec (events : List RawEvent) :
    sendPrompt events = some (sendPromptSpec [] events) :=
  sendPrompt_run_eq events [] []

/-- C3 counterexample: prompt `"hi"`, response `"hi there"` (a full
message carrying a leading echo of the prompt) followed by idle:
`sendPrompt` resolves with the raw text `"hi there"`, not with the
echo-stripped `"there"` the claim requires. -/
theorem sendPrompt_no_echo_strip_counterexample :
    sendPrompt [fullMsgEv "hi there".toList, idleEv] =
      some (.ok "hi there".toList) ∧
    jsTrimStart ((jsTrim "hi there".toList).drop
      (jsTrim "hi".toList).length) = "there".toList ∧
    ¬ ("hi there".toList = "there".toList) := by
  exact ⟨by decide, by decide, by decide⟩

theorem sendHandle_keep (st : SendState) (e : RawEvent)
    (h3 : ¬ e.type = some "session.idle".toList)
    (h4 : ¬ e.type = some "error".toList) :
    (sendHandle st e).settled = st.settled ∧
    (sendHandle st e).receivedIdle = st.receivedIdle := by
  unfold sendHandle
  rw [sendHandleErr_neg _ e h4, sendHandleIdle_neg _ e h3]
  unfold sendHandleMsg sendHandleDelta
  repeat' split
  all_goals exact ⟨rfl, rfl⟩

theorem foldSend_keep :
    ∀ (events : List RawEvent) (st : SendState),
      (∀ e ∈ events, ¬ e.type = some "session.idle".toList ∧
        ¬ e.type = some "error".toList) →
      (events.foldl sendHandle st).settled = st.settled ∧
      (events.foldl sendHandle st).receivedIdle = st.receivedIdle := by
  intro events
  induction events with
  | nil => exact fun st _ => ⟨rfl, rfl⟩
  | cons e rest ih =>
    intro st h
    have he := h e (List.mem_cons_self e rest)
    have hstep := sendHandle_keep st e he.1 he.2
    have hrest := ih (sendHandle st e)
      (fun x hx => h x (List.mem_cons_of_mem e hx))
    exact ⟨hrest.1.trans hstep.1, hrest.2.trans hstep.2⟩

/-- C10 (amended): if `sendAndWait` resolves and the turn saw neither a
`session.idle` nor an `error` event, then after the one-second grace
period `sendPrompt` resolves successfully with the response text
accumulated so far — the missing completion event is not turned into an
error and the call does not hang.  (An `error` event, however, rejects
the promise even though no idle was observed.) -/
theorem sendPrompt_no_idle_resolves (events : List RawEvent)
    (h : ∀ e ∈ events, ¬ e.type = some "session.idle".toList ∧
      ¬ e.type = some "error".toList) :
    (runSend events).receivedIdle = false ∧
    sendPrompt events = some (.ok (runSend events).fullResponse) := by
  have hk := foldSend_keep events initSend h
  have hidle : (runSend events).receivedIdle = false := hk.2
  have hset : (runSend events).settled = none := hk.1
  refine ⟨hidle, ?_⟩
  unfold sendPrompt sendFinish
  rw [if_neg (by rw [hidle]; exact Bool.false_ne_true)]
  unfold resolveSend
  rw [hset]

theorem sendPrompt_no_idle_resolves_witness :
    (¬ (deltaEv "ok".toList).type = some "session.idle".toList) ∧
    (¬ (deltaEv "ok".toList).type = some "error".toList) ∧
    (runSend [deltaEv "ok".toList]).receivedIdle = false ∧
    sendPrompt [deltaEv "ok".toList] =
      some (.ok (runSend [deltaEv "ok".toList]).fullResponse) :=
  ⟨by decide, by decide,
   sendPrompt_no_idle_resolves [deltaEv "ok".toList] (by decide)⟩

/-- C10 counterexample: a lone `error` event (no idle ever observed, and
`sendAndWait` itself resolving) leaves the promise rejected, not
resolved: the claim's conclusion fails on this trace. -/
theorem sendPrompt_error_without_idle_counterexample :
    (runSend [errEv "boom".toList]).receivedIdle = false ∧
    sendPrompt [errEv "boom".toList] = some (.error "boom".toList) ∧
    ¬ (sendPrompt [errEv "boom".toList] =
        some (.ok (runSend [errEv "boom".toList]).fullResponse)) := by
  exact ⟨by decide, by decide, by decide⟩

/-!
Session registry facts.
-/

theorem findSession_removeKey (k : Str) :
    ∀ (m : List (Str × SessionData)), findSession (removeKey m k) k = none := by
  intro m
  induction m with
  | nil => rfl
  | cons p rest ih =>
    by_cases h : p.1 = k
    · simpa [removeKey, h] using (by simpa [removeKey] using ih)
    · simp only [removeKey, List.filter_cons]
      rw [if_pos (by simpa using h)]
      simpa [findSession, h] using (by simpa [removeKey] using ih)

theorem removeKey_of_not_found (k : Str) :
    ∀ (m : List (Str × SessionData)), findSession m k = none →
      removeKey m k = m := by
  intro m
  induction m with
  | nil => intro _; rfl
  | cons p rest ih =>
    intro h
    unfold findSession at h
    by_cases hp : p.1 = k
    · rw [if_pos hp] at h; cases h
    · rw [if_neg hp] at h
      cases p with
      | mk k' v =>
        simp only [removeKey, List.filter_cons]
        rw [if_pos (by simpa using hp)]
        have := ih h
        unfold removeKey at this
        rw [this]

/-- C4 (amended): `getOrCreateSession` with a truthy, known session id
returns that id and leaves the registry — including the session's
message count — entirely unchanged, allocating nothing; with an absent or
unknown id it behaves as `createNewSession`, which (when the generated
identifier is fresh, as `Date.now`/`Math.random` are counted on to
ensure) allocates exactly one new session holding one new underlying
handle and message count 0, and returns the new id.  The message count is
not incremented on the lookup path — that happens in
`sendPromptStreaming`, not here. -/
theorem getOrCreateSession_spec (reg : Registry) (sid : Str) (model : Str) :
    (¬ sid = [] → mapHas reg.sessions sid = true →
      getOrCreateSession reg (some sid) model = (sid, reg)) ∧
    (mapHas reg.sessions sid = false →
      getOrCreateSession reg (some sid) model = createNewSession reg model) ∧
    (getOrCreateSession reg none model = createNewSession reg model) ∧
    (mapHas reg.sessions (genId reg.seed) = false →
      (createNewSession reg model).1 = genId reg.seed ∧
      (createNewSession reg model).2.sessions =
        (genId reg.seed, ⟨reg.nextHandle, model, 0⟩) :: reg.sessions ∧
      (createNewSession reg model).2.nextHandle = reg.nextHandle + 1) := by
  refine ⟨?_, ?_, ?_, ?_⟩
  · intro hne hhas
    simp only [getOrCreateSession]
    rw [if_pos ⟨hne, hhas⟩]
  · intro hno
    simp only [getOrCreateSession]
    rw [if_neg (by simp [hno])]
  · rfl
  · intro hfresh
    refine ⟨rfl, ?_, rfl⟩
    unfold createNewSession mapSet
    have : findSession reg.sessions (genId reg.seed) = none := by
      unfold mapHas at hfresh
      exact Option.not_isSome_iff_eq_none.mp (by simp [hfresh])
    rw [removeKey_of_not_found _ _ this]

def demoReg : Registry :=
  ⟨[("s1".toList, ⟨0, "m".toList, 5⟩)], 1, 0, []⟩

theorem getOrCreateSession_spec_witness :
    (¬ ("s1".toList : Str) = []) ∧
    mapHas demoReg.sessions "s1".toList = true ∧
    mapHas demoReg.sessions (genId demoReg.seed) = false ∧
    getOrCreateSession demoReg (some "s1".toList) "m".toList =
      ("s1".toList, demoReg) ∧
    (createNewSession demoReg "m".toList).2.nextHandle =
      demoReg.nextHandle + 1 :=
  ⟨by decide, by decide, by decide,
   (getOrCreateSession_spec demoReg "s1".toList "m".toList).1
     (by decide) (by decide),
   ((getOrCreateSession_spec demoReg "s1".toList "m".toList).2.2.2
     (by decide)).2.2⟩

/-- C4 counterexample: looking up the existing session `"s1"` (message
count 5) through `getOrCreateSession` leaves the count at 5; the claimed
increment to 6 does not happen — no code in `getOrCreateSession` touches
`messageCount`. -/
theorem getOrCreateSession_no_increment_counterexample :
    (getOrCreateSession demoReg (some "s1".toList) "m".toList).2 = demoReg ∧
    findSession (getOrCreateSession demoReg (some "s1".toList)
      "m".toList).2.sessions "s1".toList = some ⟨0, "m".toList, 5⟩ ∧
    ¬ (findSession (getOrCreateSession demoReg (some "s1".toList)
      "m".toList).2.sessions "s1".toList = some ⟨0, "m".toList, 5 + 1⟩) := by
  exact ⟨by decide, by decide, by decide⟩

/-- C7 (amended): `deleteSession` with an unknown id returns `false` and
leaves the registry unchanged; with an existing id it removes the session
from the registry and returns `true`, after which `getOrCreateSession`
with that id behaves as `createNewSession`, allocating a brand-new
session.  No code path releases (destroys) the underlying assistant
handle: the ghost `destroyed` list never changes. -/
theorem deleteSession_spec (reg : Registry) (sid : Str) (model : Str) :
    (mapHas reg.sessions sid = false → deleteSession reg sid = (false, reg)) ∧
    (mapHas reg.sessions sid = true →
      (deleteSession reg sid).1 = true ∧
      mapHas (deleteSession reg sid).2.sessions sid = false ∧
      (deleteSession reg sid).2.destroyed = reg.destroyed ∧
      getOrCreateSession (deleteSession reg sid).2 (some sid) model =
        createNewSession (deleteSession reg sid).2 model) := by
  constructor
  · intro hno
    unfold deleteSession
    rw [if_neg (by simp [hno])]
  · intro hhas
    unfold deleteSession
    rw [if_pos hhas]
    have hrm : mapHas (removeKey reg.sessions sid) sid = false := by
      unfold mapHas
      rw [findSession_removeKey sid reg.sessions]
      rfl
    refine ⟨rfl, hrm, rfl, ?_⟩
    simp only [getOrCreateSession]
    rw [if_neg (by simp [hrm])]

theorem deleteSession_spec_witness :
    (mapHas demoReg.sessions "zz".toList = false ∧
     deleteSession demoReg "zz".toList = (false, demoReg)) ∧
    (mapHas demoReg.sessions "s1".toList = true ∧
     (deleteSession demoReg "s1".toList).1 = true ∧
     mapHas (deleteSession demoReg "s1".toList).2.sessions "s1".toList = false) :=
  ⟨⟨by decide, (deleteSession_spec demoReg "zz".toList "m".toList).1 (by decide)⟩,
   ⟨by decide,
    ((deleteSession_spec demoReg "s1".toList "m".toList).2 (by decide)).1,
    ((deleteSession_spec demoReg "s1".toList "m".toList).2 (by decide)).2.1⟩⟩

/-- C7 counterexample: deleting the existing session `"s1"` (underlying
handle 0) returns `true` and removes it, but releases nothing: the ghost
list of destroyed handles stays empty, so the underlying handle `0` is
never released, contrary to the claim. -/
theorem deleteSession_no_release_counterexample :
    (deleteSession demoReg "s1".toList).1 = true ∧
    (deleteSession demoReg "s1".toList).2.destroyed = [] ∧
    ¬ (0 ∈ (deleteSession demoReg "s1".toList).2.destroyed) := by
  exact ⟨by decide, by decide, by decide⟩

/-!
Artifact Watcher, modelled from the spec.
-/

/-- Modelled from the spec: the Artifact Watcher of spec section 4.5 is
not among the source files under version control here (only the streaming
bridge is); its announcement discipline is modelled from the spec's
words: the directory listing at Turn start seeds the `preExisting` set,
and a per-Turn `notified` set records every filename already announced. -/
structure WatcherState where
  preExisting : List Str
  notified : List Str
deriving DecidableEq

/-- Modelled from the spec: one observation of a filename appearing in or
being modified inside the output directory during the Turn; a file is
announced only if it is neither pre-existing nor already notified. -/
def artifactObserve (st : WatcherState) (f : Str) : WatcherState × List Str :=
  if f ∈ st.preExisting ∨ f ∈ st.notified then (st, [])
  else ({ st with notified := f :: st.notified }, [f])

/-- Modelled from the spec: the announcements over a Turn's sequence of
directory observations. -/
def artifactRun (st : WatcherState) : List Str → List Str
  | [] => []
  | f :: rest =>
    ((artifactObserve st f).2) ++ artifactRun (artifactObserve st f).1 rest

/-- Modelled from the spec: a whole Turn of the Artifact Watcher, seeded
with the files present at Turn start. -/
def artifactWatcher (pre : List Str) (obs : List Str) : List Str :=
  artifactRun ⟨pre, []⟩ obs

theorem artifactRun_inv :
    ∀ (obs : List Str) (st : WatcherState) (f : Str),
      ((f ∈ st.preExisting ∨ f ∈ st.notified) → f ∉ artifactRun st obs) ∧
      (artifactRun st obs).count f ≤ 1 := by
  intro obs
  induction obs with
  | nil => intro st f; exact ⟨fun _ => List.not_mem_nil f, by simp [artifactRun]⟩
  | cons g rest ih =>
    intro st f
    by_cases hg : g ∈ st.preExisting ∨ g ∈ st.notified
    · have hob : artifactObserve st g = (st, []) := by
        unfold artifactObserve; rw [if_pos hg]
      constructor
      · intro hf
        show f ∉ ((artifactObserve st g).2) ++ artifactRun (artifactObserve st g).1 rest
        rw [hob]
        simpa using (ih st f).1 hf
      · show ((artifactObserve st g).2 ++ artifactRun (artifactObserve st g).1 rest).count f ≤ 1
        rw [hob]
        simpa using (ih st f).2
    · have hob : artifactObserve st g =
          ({ st with notified := g :: st.notified }, [g]) := by
        unfold artifactObserve; rw [if_neg hg]
      constructor
      · intro hf
        show f ∉ ((artifactObserve st g).2) ++ artifactRun (artifactObserve st g).1 rest
        rw [hob]
        have hfg : ¬ f = g := fun h => hg (h ▸ hf)
        have htail : f ∉ artifactRun { st with notified := g :: st.notified } rest := by
          refine (ih _ f).1 ?_
          rcases hf with hf | hf
          · exact Or.inl hf
          · exact Or.inr (List.mem_cons_of_mem g hf)
        simp [hfg, htail]
      · show ((artifactObserve st g).2 ++ artifactRun (artifactObserve st g).1 rest).count f ≤ 1
        rw [hob]
        by_cases hfg : f = g
        · subst hfg
          have htail : f ∉ artifactRun { st with notified := f :: st.notified } rest :=
            (ih _ f).1 (Or.inr (List.mem_cons_self f st.notified))
          simp [List.count_cons, List.count_eq_zero.mpr htail]
        · have : (artifactRun { st with notified := g :: st.notified } rest).count f ≤ 1 :=
            (ih _ f).2
          simpa [List.count_cons, hfg] using this

/-- C8: during one Turn, a filename is announced at most once, and a file
that was already present in the output directory when the Turn began is
never announced, whatever observations (including modification-time
changes) arrive during the Turn. -/
theorem artifact_announced_at_most_once (pre obs : List Str) (f : Str) :
    (artifactWatcher pre obs).count f ≤ 1 ∧
    (f ∈ pre → f ∉ artifactWatcher pre obs) := by
  refine ⟨(artifactRun_inv obs ⟨pre, []⟩ f).2, fun hf => ?_⟩
  exact (artifactRun_inv obs ⟨pre, []⟩ f).1 (Or.inl hf)

theorem artifact_announced_at_most_once_witness :
    artifactWatcher ["a".toList] ["a".toList, "b".toList, "a".toList,
      "b".toList] = ["b".toList] ∧
    (artifactWatcher ["a".toList] ["a".toList, "b".toList, "a".toList,
      "b".toList]).count "b".toList ≤ 1 ∧
    ("a".toList ∈ ["a".toList] ∧
     "a".toList ∉ artifactWatcher ["a".toList]
       ["a".toList, "b".toList, "a".toList, "b".toList]) :=
  ⟨by decide,
   (artifact_announced_at_most_once ["a".toList]
     ["a".toList, "b".toList, "a".toList, "b".toList] "b".toList).1,
   ⟨by decide,
    (artifact_announced_at_most_once ["a".toList]
      ["a".toList, "b".toList, "a".toList, "b".toList] "a".toList).2
      (by decide)⟩⟩
